import Mathlib

/-!
Shallow embedding of the Jenkins-Toolkit VS Code extension
(src/src/types.ts, src/src/jenkinsApi.ts, src/src/treeView.ts,
src/src/statusBar.ts, src/unnamed/part_000 = configuration.ts,
src/unnamed/part_001 = extension.ts), together with proofs that settle
the frozen claims about its specification.

Conventions used throughout:
* A JavaScript value that may be `undefined` is embedded as `Option`;
  `none` stands for `undefined`.
* A JSON field that may be `null` is likewise an `Option` at one level
  deeper: the `result` of a build is `Option String`, `none` meaning the
  JSON `null` that Jenkins reports while a build is running.
* A JavaScript expression that can throw a `TypeError` is embedded in
  `Except String`; `Except.error` is a thrown exception escaping the
  enclosing function.
* JavaScript string truthiness (`!s`) is the test `s = ""` for present
  strings and `true` for `undefined` ones.
-/

namespace JenkinsToolkit

instance {ε α : Type} [DecidableEq ε] [DecidableEq α] : DecidableEq (Except ε α) :=
  fun a b =>
    match a, b with
    | .error e, .error f => decidable_of_iff (e = f) (by simp)
    | .error _, .ok _ => isFalse (by simp)
    | .ok _, .error _ => isFalse (by simp)
    | .ok x, .ok y => decidable_of_iff (x = y) (by simp)

/-- One entry of a Jenkins change set, as requested by the `tree`
parameter of `fetchBuildHistory` (`changeSets[items[msg,authorEmail,commitId]]`,
src/src/jenkinsApi.ts line 50). `authorEmail` may be absent on the wire;
the filtering code guards it (`item.authorEmail && ...`). -/
structure ChangeItem where
  msg : String
  authorEmail : Option String
  commitId : String
deriving DecidableEq

/-- One change set of a build; its `items` field may be absent
(the filtering code guards it with `changeSet.items?.`). -/
structure ChangeSet where
  items : Option (List ChangeItem)
deriving DecidableEq

/-- A Jenkins build as fetched by `fetchBuildHistory`
(interface `JenkinsBuild` of src/src/types.ts plus the `changeSets`
payload that the `tree` parameter adds; `changeSets` may be absent,
the filter guards it with `build.changeSets?.`).
`result` is `none` for the JSON `null` of a running build. -/
structure JenkinsBuild where
  number : Int
  url : String
  result : Option String
  timestamp : Int
  duration : Int
  changeSets : Option (List ChangeSet)
deriving DecidableEq

/-- A repository mapping from configuration (src/src/types.ts). -/
structure RepositoryMapping where
  workspaceFolderName : String
  jenkinsJobName : String
deriving DecidableEq

/-- The extension configuration (src/src/types.ts); `getConfiguration`
defaults absent strings to `""`, so the fields are plain strings. -/
structure JenkinsConfiguration where
  jenkinsUrl : String
  username : String
  repositoryMappings : List RepositoryMapping
  pollingInterval : Int
deriving DecidableEq

/-- JavaScript `String.prototype.toLowerCase`, used at
src/src/treeView.ts lines 47 and 106: lower-case every character. -/
def jsToLower (s : String) : String := ⟨s.data.map Char.toLower⟩

/-- `getJenkinsJobName` of configuration.ts (src/unnamed/part_000,
lines 52-55): find the first mapping whose folder name matches and
return its job name, `undefined` when there is none. -/
def getJenkinsJobName (folderName : String) (mappings : List RepositoryMapping) :
    Option String :=
  (mappings.find? fun m => m.workspaceFolderName == folderName).map
    fun m => m.jenkinsJobName

/-! ## Remote Job Client (src/src/jenkinsApi.ts) -/

/-- Outcome of the single HTTP GET performed by `fetchBuildStatus`:
either the transport threw (network error, malformed body - both are
caught by the surrounding `try`), or a response arrived with an `ok`
flag and a JSON `result` field (`none` = JSON null = building). -/
inductive StatusHttpOutcome where
  | netError
  | response (ok : Bool) (result : Option String)
deriving DecidableEq

/-- `fetchBuildStatus` (src/src/jenkinsApi.ts lines 11-37): returns
`undefined` on a non-2xx response or a caught error, otherwise the raw
`result` field of the body (which may be JSON null, embedded `none`). -/
def fetchBuildStatus (o : StatusHttpOutcome) : Option (Option String) :=
  match o with
  | .netError => none
  | .response ok result => if ok then some result else none

/-- Outcome of the HTTP GET performed by `fetchBuildHistory`: transport
error, or a response whose body may or may not carry a `builds` array. -/
inductive HistoryHttpOutcome where
  | netError
  | response (ok : Bool) (builds : Option (List JenkinsBuild))
deriving DecidableEq

/-- `fetchBuildHistory` (src/src/jenkinsApi.ts lines 48-75): returns
`undefined` on a non-2xx response or caught error, otherwise
`data.builds` (itself possibly `undefined`). -/
def fetchBuildHistory (o : HistoryHttpOutcome) : Option (List JenkinsBuild) :=
  match o with
  | .netError => none
  | .response ok builds => if ok then builds else none

/-! ## Status Cache (field `jobs : Map<string, JenkinsBuild[]>` of
JenkinsTreeDataProvider, src/src/treeView.ts line 14) -/

/-- The build cache: an association list embedding the
`Map<string, JenkinsBuild[]>` field `jobs`. -/
abbrev Cache := List (String × List JenkinsBuild)

/-- `Map.prototype.get`: first entry with the given key, else `undefined`. -/
def cacheGet (c : Cache) (jobName : String) : Option (List JenkinsBuild) :=
  (c.find? fun e => e.1 == jobName).map fun e => e.2

/-- `Map.prototype.set`: replace any entry with the given key. -/
def cacheSet (c : Cache) (jobName : String) (builds : List JenkinsBuild) : Cache :=
  (jobName, builds) :: c.filter fun e => e.1 != jobName

/-- The empty cache (the state after construction). -/
def cacheEmpty : Cache := []

/-- `clearCache` (src/src/treeView.ts lines 131-133): `Map.prototype.clear`. -/
def cacheClear (_ : Cache) : Cache := cacheEmpty

/-! ## Lazy Build Tree (src/src/treeView.ts, the author-filtering
version, which is the one the claims cite) -/

/-- The author filter predicate of `getChildren`
(src/src/treeView.ts lines 101-109):
`build.changeSets?.some(changeSet => changeSet.items?.some(item =>
item.authorEmail && item.authorEmail.toLowerCase() === configuredUsername))`.
`configuredUsername` is the configured username already lower-cased. -/
def buildMatchesUser (configuredUsername : String) (b : JenkinsBuild) : Bool :=
  match b.changeSets with
  | none => false
  | some changeSets =>
    changeSets.any fun changeSet =>
      match changeSet.items with
      | none => false
      | some items =>
        items.any fun item =>
          match item.authorEmail with
          | none => false
          | some email => email ≠ "" && jsToLower email == configuredUsername

/-- The arguments the tree view passes to the `JenkinsBuildItem`
constructor for each presented build (src/src/treeView.ts lines 115 and
118): label = first change item commit id, description = its message,
plus the build itself and the parent job name. The collapsible state is
the constant `None` and is omitted. -/
structure JenkinsBuildItem where
  label : String
  descr : String
  build : JenkinsBuild
  jobName : String
deriving DecidableEq

/-- The JavaScript expression `build.changeSets[0].items[0]`
(src/src/treeView.ts lines 115 and 118). Every step throws a
`TypeError` when the value to its left is `undefined`:
absent or empty `changeSets`, absent or empty `items`. -/
def firstChangeItem (b : JenkinsBuild) : Except String ChangeItem :=
  match b.changeSets with
  | none => .error "TypeError: cannot read index 0 of undefined changeSets"
  | some [] => .error "TypeError: cannot read items of undefined"
  | some (changeSet :: _) =>
    match changeSet.items with
    | none => .error "TypeError: cannot read index 0 of undefined items"
    | some [] => .error "TypeError: cannot read commitId of undefined"
    | some (item :: _) => .ok item

/-- `builds.map(build => new JenkinsBuildItem(...))` as written at
src/src/treeView.ts lines 115 and 118: JavaScript `map` runs the
callback in index order and the first thrown `TypeError` escapes. -/
def buildItemsOf (jobName : String) : List JenkinsBuild → Except String (List JenkinsBuildItem)
  | [] => .ok []
  | b :: bs =>
    match firstChangeItem b with
    | .error e => .error e
    | .ok item =>
      match buildItemsOf jobName bs with
      | .error e => .error e
      | .ok items =>
        .ok ({ label := item.commitId, descr := item.msg, build := b,
               jobName := jobName } :: items)

/-- The comparator `(a, b) => b.number - a.number` passed to
`Array.prototype.sort` at src/src/treeView.ts line 114: `a` sorts no
later than `b` exactly when `b.number ≤ a.number`. -/
def buildDescRel (a b : JenkinsBuild) : Prop := b.number ≤ a.number

instance : DecidableRel buildDescRel := fun a b =>
  inferInstanceAs (Decidable (b.number ≤ a.number))

instance : IsTotal JenkinsBuild buildDescRel :=
  ⟨fun a b => le_total b.number a.number⟩

instance : IsTrans JenkinsBuild buildDescRel :=
  ⟨fun _ _ _ h1 h2 => le_trans h2 h1⟩

/-- `filteredBuilds.sort((a, b) => b.number - a.number)`
(src/src/treeView.ts line 114): a comparator-correct sort of the list.
Embedded as insertion sort with respect to `buildDescRel`. -/
def sortByNumberDesc (builds : List JenkinsBuild) : List JenkinsBuild :=
  List.insertionSort buildDescRel builds

/-- What an expansion of a project node returns to the host: either a
single placeholder `vscode.TreeItem` carrying a message, or a list of
`JenkinsBuildItem`. -/
inductive TreeChildren where
  | placeholder (text : String)
  | buildItems (items : List JenkinsBuildItem)
deriving DecidableEq

/-- Result of presenting a build list (children, or a thrown
`TypeError`, plus the optional warning message shown via
`showWarningMessage`). -/
structure Presentation where
  children : Except String TreeChildren
  warning : Option String
deriving DecidableEq

/-- The presentation step of `getChildren` on a resolved build list
(src/src/treeView.ts lines 98-122): filter by the lower-cased
configured username when one is configured, sort and present the
filtered set when it is non-empty, otherwise warn and present the full
unfiltered list as returned by the server, and present a
`No builds found.` placeholder for an empty list. -/
def presentJobBuilds (configuredUsername jobName : String)
    (builds : List JenkinsBuild) : Presentation :=
  if builds.length > 0 then
    let filteredBuilds :=
      if configuredUsername ≠ "" then builds.filter (buildMatchesUser configuredUsername)
      else builds
    if filteredBuilds.length > 0 then
      { children := (buildItemsOf jobName (sortByNumberDesc filteredBuilds)).map .buildItems,
        warning := none }
    else
      { children := (buildItemsOf jobName builds).map .buildItems,
        warning := some ("No builds for configured user " ++ configuredUsername
          ++ ", showing last " ++ toString builds.length ++ " builds") }
  else
    { children := .ok (.placeholder "No builds found."), warning := none }

/-- Everything observable about one expansion of a project node:
the children handed to the host (or the exception that escaped), the
cache state afterwards, how many `fetchBuildHistory` calls were issued
(0 or 1, always for this `jobName`), and the warning, if any. -/
structure ExpandOutcome where
  children : Except String TreeChildren
  cache : Cache
  fetchCalls : Nat
  warning : Option String
deriving DecidableEq

/-- The `element instanceof JenkinsJobItem` branch of
`JenkinsTreeDataProvider.getChildren` (src/src/treeView.ts lines
83-122). `username` is the configured username (non-empty whenever the
guard at line 49 let execution reach this branch); `fetchResult` is
what `fetchBuildHistory` returns if the branch calls it (`none` is the
failure signal). An empty cached array is truthy in JavaScript, so
`if (!builds)` refetches exactly on a cache miss. -/
def getChildrenOfJob (cache : Cache) (jobName username : String)
    (fetchResult : Option (List JenkinsBuild)) : ExpandOutcome :=
  let configuredUsername := jsToLower username
  match cacheGet cache jobName with
  | some builds =>
    let p := presentJobBuilds configuredUsername jobName builds
    { children := p.children, cache := cache, fetchCalls := 0, warning := p.warning }
  | none =>
    match fetchResult with
    | none =>
      { children := .ok (.placeholder "Could not fetch builds."), cache := cache,
        fetchCalls := 1, warning := none }
    | some builds =>
      let p := presentJobBuilds configuredUsername jobName builds
      { children := p.children, cache := cacheSet cache jobName builds,
        fetchCalls := 1, warning := p.warning }

/-! ## Summary Presenter (src/src/statusBar.ts) -/

/-- Which branch of the `if` chain of `updateStatusBar`
(src/src/statusBar.ts lines 24-44) renders the summary. The argument
is the `status` parameter: `none` = `undefined`, `some none` = JSON
null (building), `some (some s)` = a result string. A string that is
none of the three known results leaves the default text, the
`checking` branch. -/
inductive SummaryKind where
  | success
  | failure
  | aborted
  | building
  | unknown
  | checking
deriving DecidableEq

/-- The branch of `updateStatusBar` selected for a given status value,
following the strict-equality chain of src/src/statusBar.ts. -/
def summaryKindOf (status : Option (Option String)) : SummaryKind :=
  if status = some (some "SUCCESS") then .success
  else if status = some (some "FAILURE") then .failure
  else if status = some (some "ABORTED") then .aborted
  else if status = some none then .building
  else if status = none then .unknown
  else .checking

/-- The `text` that `updateStatusBar` writes into the status bar item
for a folder (src/src/statusBar.ts lines 24-44). -/
def statusBarText (folderName : String) (status : Option (Option String)) : String :=
  match summaryKindOf status with
  | .success => "$(check) " ++ folderName ++ ": Success"
  | .failure => "$(error) " ++ folderName ++ ": Failed"
  | .aborted => "$(circle-slash) " ++ folderName ++ ": Aborted"
  | .building => "$(sync~spin) " ++ folderName ++ ": Building..."
  | .unknown => "$(question) " ++ folderName ++ ": Unknown"
  | .checking => "$(sync~spin) " ++ folderName ++ ": Checking..."

/-! ## Refresh cycle (`refreshBuildStatuses`, src/unnamed/part_001
lines 154-199, the tree-view version cited by the claims) -/

/-- One call to `updateStatusBar`: the folder, the `status` argument
(`none` = `undefined`), and the optional `command` argument. -/
structure StatusBarUpdate where
  folderName : String
  status : Option (Option String)
  command : Option String
deriving DecidableEq

/-- JavaScript falsiness of the `apiToken : string | undefined` value:
`!apiToken` holds for `undefined` and for the empty string. -/
def jsFalsyOptStr (s : Option String) : Bool :=
  match s with
  | none => true
  | some t => t == ""

/-- Everything observable about one refresh cycle: the
`updateStatusBar` calls made in order, the job names fetched over the
network via `fetchBuildStatus` in order, whether the tree cache was
cleared and the tree refreshed at the end, and whether the
missing-token warning was shown. -/
structure RefreshOutcome where
  updates : List StatusBarUpdate
  statusRequests : List String
  cacheCleared : Bool
  treeRefreshed : Bool
  tokenWarning : Bool
deriving DecidableEq

/-- `refreshBuildStatuses` (src/unnamed/part_001 lines 154-199).
`net` is the network oracle: the HTTP outcome that the single
`fetchBuildStatus` GET for a job name would observe. Missing
url or username halts the cycle after marking every folder with the
`undefined` status and the configure command (and clearing/refreshing
the tree view); a missing token halts it with a warning; otherwise each
mapped folder costs one network request and one status update. -/
def refreshBuildStatuses (config : JenkinsConfiguration) (apiToken : Option String)
    (workspaceFolders : List String) (net : String → StatusHttpOutcome) :
    RefreshOutcome :=
  if config.jenkinsUrl = "" ∨ config.username = "" then
    { updates := workspaceFolders.map fun folder =>
        { folderName := folder, status := none,
          command := some "jenkinsBuildStatus.configure" },
      statusRequests := [], cacheCleared := true, treeRefreshed := true,
      tokenWarning := false }
  else if jsFalsyOptStr apiToken then
    { updates := [], statusRequests := [], cacheCleared := false,
      treeRefreshed := false, tokenWarning := true }
  else
    let perFolder := workspaceFolders.map fun folder =>
      match getJenkinsJobName folder config.repositoryMappings with
      | some jobName =>
        (({ folderName := folder, status := fetchBuildStatus (net jobName),
            command := none } : StatusBarUpdate), [jobName])
      | none =>
        (({ folderName := folder, status := none,
            command := some "jenkinsBuildStatus.configure" } : StatusBarUpdate),
         ([] : List String))
    { updates := perFolder.map fun pr => pr.1,
      statusRequests := (perFolder.map fun pr => pr.2).flatten,
      cacheCleared := true, treeRefreshed := true, tokenWarning := false }

/-! ## Polling Scheduler (`activate`, src/unnamed/part_001 lines
230-308)

The extension is single-threaded and cooperative: `refreshBuildStatuses`
is an `async` function that suspends at its `await` points (the secret
lookup and each `fetchBuildStatus` network call), and timer callbacks
run whenever the main task is suspended. The wiring in `activate` is

  `pollingInterval = setInterval(() => refreshBuildStatuses(context.secrets), interval)`

so a timer fire invokes `refreshBuildStatuses` fire-and-forget: the
returned promise is not awaited and no in-flight flag is checked. We
model the scheduler as a transition system whose state counts the
refresh-cycle invocations currently in flight (started and not yet run
to completion) and tracks the armed `setInterval` handle. -/

/-- The `event.affectsConfiguration(...)` answers that the
configuration-change listener at src/unnamed/part_001 lines 275-291
inspects. -/
structure ConfigChangeEvent where
  affectsPollingInterval : Bool
  affectsJenkinsUrl : Bool
  affectsUsername : Bool
  affectsRepositoryMappings : Bool
deriving DecidableEq

/-- Scheduler state: the armed timer handle (the module-level
`pollingInterval` variable) with its interval, a counter supplying
fresh timer handles, and the number of `refreshBuildStatuses`
invocations currently in flight. -/
structure SchedulerState where
  timer : Option Nat
  timerInterval : Int
  nextHandle : Nat
  inFlight : Nat
deriving DecidableEq

/-- Observable actions of the configuration-change listener. -/
inductive SchedAction where
  | cancelTimer (handle : Nat)
  | armTimer (handle : Nat) (interval : Int)
  | startRefresh
deriving DecidableEq

/-- The configuration-change listener (src/unnamed/part_001 lines
275-291): when the polling interval is affected, `clearInterval` the
current handle and `setInterval` a fresh one at the newly read
interval; when url, username or repository mappings are affected,
start one refresh cycle. Nothing else happens. -/
def onConfigurationChanged (ev : ConfigChangeEvent) (newInterval : Int)
    (s : SchedulerState) : SchedulerState × List SchedAction :=
  let (s1, acts1) :=
    if ev.affectsPollingInterval then
      let cancels :=
        match s.timer with
        | some h => [SchedAction.cancelTimer h]
        | none => []
      let s2 := { s with timer := some s.nextHandle,
                         timerInterval := newInterval,
                         nextHandle := s.nextHandle + 1 }
      (s2, cancels ++ [SchedAction.armTimer s.nextHandle newInterval])
    else (s, [])
  if ev.affectsJenkinsUrl || ev.affectsUsername || ev.affectsRepositoryMappings then
    ({ s1 with inFlight := s1.inFlight + 1 }, acts1 ++ [SchedAction.startRefresh])
  else (s1, acts1)

/-- Events the scheduler reacts to. `timerFire` can occur in any state
with an armed timer: in-flight cycles are suspended at their `await`
points, so the event loop is free to run the timer callback.
`cycleFinish` is an in-flight `refreshBuildStatuses` running to
completion. -/
inductive SchedEvent where
  | timerFire
  | cycleFinish
  | configChange (ev : ConfigChangeEvent) (newInterval : Int)
  | workspaceFoldersChange
deriving DecidableEq

/-- One scheduler step. The `timerFire` callback
`() => refreshBuildStatuses(context.secrets)` starts a cycle
unconditionally - the code keeps no in-flight flag and does not await
the previous promise - so the in-flight count simply increments. -/
def schedStep (s : SchedulerState) : SchedEvent → Option SchedulerState
  | .timerFire =>
    if s.timer.isSome then some { s with inFlight := s.inFlight + 1 } else none
  | .cycleFinish =>
    if s.inFlight > 0 then some { s with inFlight := s.inFlight - 1 } else none
  | .configChange ev newInterval => some (onConfigurationChanged ev newInterval s).1
  | .workspaceFoldersChange => some { s with inFlight := s.inFlight + 1 }

/-- Run a sequence of scheduler events. -/
def schedRun (s : SchedulerState) : List SchedEvent → Option SchedulerState
  | [] => some s
  | e :: es =>
    match schedStep s e with
    | none => none
    | some s1 => schedRun s1 es

/-- The state right after `activate` (src/unnamed/part_001 lines
263-271): one initial refresh cycle has been started fire-and-forget
and the interval timer is armed with handle 0. -/
def activateInit (interval : Int) : SchedulerState :=
  { timer := some 0, timerInterval := interval, nextHandle := 1, inFlight := 1 }

/-! ## Helper lemmas -/

lemma cacheGet_cacheSet_self (c : Cache) (jobName : String)
    (builds : List JenkinsBuild) :
    cacheGet (cacheSet c jobName builds) jobName = some builds := by
  simp [cacheGet, cacheSet]

/-- A successful `buildItemsOf` presents exactly its input builds, in
order. -/
lemma buildItemsOf_map_build (jobName : String) :
    ∀ (bs : List JenkinsBuild) (items : List JenkinsBuildItem),
      buildItemsOf jobName bs = Except.ok items →
      items.map JenkinsBuildItem.build = bs := by
  intro bs
  induction bs with
  | nil => intro items h; simp [buildItemsOf] at h; simp [← h]
  | cons b rest ih =>
    intro items h
    simp only [buildItemsOf] at h
    cases hfc : firstChangeItem b with
    | error e => rw [hfc] at h; exact absurd h (by simp)
    | ok item =>
      rw [hfc] at h
      cases hrest : buildItemsOf jobName rest with
      | error e => rw [hrest] at h; exact absurd h (by simp)
      | ok restItems =>
        rw [hrest] at h
        cases h
        simpa using ih restItems hrest

/-- `buildItemsOf` succeeds when every build has a first change item. -/
lemma buildItemsOf_ok (jobName : String) :
    ∀ bs : List JenkinsBuild,
      (∀ b ∈ bs, ∃ item, firstChangeItem b = Except.ok item) →
      ∃ items, buildItemsOf jobName bs = Except.ok items := by
  intro bs
  induction bs with
  | nil => intro _; exact ⟨[], rfl⟩
  | cons b rest ih =>
    intro h
    obtain ⟨item, hitem⟩ := h b (List.mem_cons_self b rest)
    obtain ⟨items, hitems⟩ := ih fun x hx => h x (List.mem_cons_of_mem b hx)
    exact ⟨{ label := item.commitId, descr := item.msg, build := b,
             jobName := jobName } :: items,
           by simp [buildItemsOf, hitem, hitems]⟩

lemma sortByNumberDesc_perm (bs : List JenkinsBuild) :
    List.Perm (sortByNumberDesc bs) bs :=
  List.perm_insertionSort buildDescRel bs

lemma sortByNumberDesc_sorted (bs : List JenkinsBuild) :
    List.Sorted buildDescRel (sortByNumberDesc bs) :=
  List.sorted_insertionSort buildDescRel bs

/-- Presented build numbers, strictly descending: what the spec calls
`sorted by number descending (newest first)` with unique numbers. -/
def StrictlyDescending (numbers : List Int) : Prop :=
  List.Pairwise (fun a b => b < a) numbers

instance : DecidablePred StrictlyDescending := fun ns =>
  inferInstanceAs (Decidable (List.Pairwise _ ns))

/-- The sorted output is strictly descending by build number whenever
the input numbers are distinct. -/
lemma sortByNumberDesc_strictDesc (bs : List JenkinsBuild)
    (hnodup : (bs.map JenkinsBuild.number).Nodup) :
    StrictlyDescending ((sortByNumberDesc bs).map JenkinsBuild.number) := by
  have hsorted : List.Pairwise (fun a b : JenkinsBuild => b.number ≤ a.number)
      (sortByNumberDesc bs) := sortByNumberDesc_sorted bs
  have hperm : List.Perm ((sortByNumberDesc bs).map JenkinsBuild.number)
      (bs.map JenkinsBuild.number) := (sortByNumberDesc_perm bs).map _
  have hnd : ((sortByNumberDesc bs).map JenkinsBuild.number).Nodup :=
    hperm.nodup_iff.mpr hnodup
  have hge : List.Pairwise (fun a b : Int => b ≤ a)
      ((sortByNumberDesc bs).map JenkinsBuild.number) :=
    List.pairwise_map.mpr hsorted
  have hne : List.Pairwise (fun a b : Int => a ≠ b)
      ((sortByNumberDesc bs).map JenkinsBuild.number) := hnd
  exact (hge.and hne).imp fun h => lt_of_le_of_ne h.1 h.2.symm

/-- The children of an `ExpandOutcome` as a list of presented builds,
when the expansion produced build items rather than a placeholder or a
thrown exception. -/
def presentedBuilds (out : ExpandOutcome) : Option (List JenkinsBuild) :=
  match out.children with
  | .ok (.buildItems items) => some (items.map JenkinsBuildItem.build)
  | _ => none

/-- The presented build numbers, in presentation order. -/
def presentedNumbers (out : ExpandOutcome) : Option (List Int) :=
  (presentedBuilds out).map fun bs => bs.map JenkinsBuild.number

/-! ## Concrete fixtures used by witnesses and counterexamples -/

/-- Build 1, change set authored by bob. -/
def buildNo1Bob : JenkinsBuild :=
  { number := 1, url := "http://j/job/JOB/1/", result := some "SUCCESS",
    timestamp := 100, duration := 10,
    changeSets := some [⟨some [⟨"msg one", some "bob@x.com", "c111"⟩]⟩] }

/-- Build 2, change set authored by bob. -/
def buildNo2Bob : JenkinsBuild :=
  { number := 2, url := "http://j/job/JOB/2/", result := some "FAILURE",
    timestamp := 200, duration := 20,
    changeSets := some [⟨some [⟨"msg two", some "Bob@X.com", "c222"⟩]⟩] }

/-- Build 4, change set authored by alice (spec scenario, section 8). -/
def buildNo4Alice : JenkinsBuild :=
  { number := 4, url := "http://j/job/JOB/4/", result := some "SUCCESS",
    timestamp := 400, duration := 40,
    changeSets := some [⟨some [⟨"msg four", some "alice@x.com", "c444"⟩]⟩] }

/-- Build 5, running, change set authored by bob (spec scenario). -/
def buildNo5Bob : JenkinsBuild :=
  { number := 5, url := "http://j/job/JOB/5/", result := none,
    timestamp := 500, duration := 0,
    changeSets := some [⟨some [⟨"msg five", some "bob@x.com", "c555"⟩]⟩] }

/-- Build 7 with an empty change-set array, as a build without commits
arrives from the wire. -/
def buildNo7NoChanges : JenkinsBuild :=
  { number := 7, url := "http://j/job/JOB/7/", result := some "SUCCESS",
    timestamp := 700, duration := 70, changeSets := some [] }

/-- A configuration with no server URL. -/
def cfgNoUrl : JenkinsConfiguration :=
  { jenkinsUrl := "", username := "alice@x.com", repositoryMappings := [],
    pollingInterval := 30000 }

/-- A fully configured setup mapping folder `proj-a` to job `JOB`. -/
def cfgOk : JenkinsConfiguration :=
  { jenkinsUrl := "http://j", username := "alice@x.com",
    repositoryMappings := [⟨"proj-a", "JOB"⟩], pollingInterval := 30000 }

/-! ## Claim C5 -/

/-- Claim C5: when `fetchBuildHistory` fails (returns the failure
signal `undefined`), the cache entry for the job is not created or
modified, `getChildren` returns the single `Could not fetch builds.`
placeholder, and the next expansion of the same project node issues
the fetch again. -/
theorem failed_fetch_not_cached (c : Cache) (jobName username : String)
    (o : HistoryHttpOutcome)
    (hmiss : cacheGet c jobName = none)
    (hfail : fetchBuildHistory o = none) :
    (getChildrenOfJob c jobName username (fetchBuildHistory o)).cache = c ∧
    (getChildrenOfJob c jobName username (fetchBuildHistory o)).children =
      Except.ok (TreeChildren.placeholder "Could not fetch builds.") ∧
    (getChildrenOfJob c jobName username (fetchBuildHistory o)).fetchCalls = 1 ∧
    ∀ laterFetch,
      (getChildrenOfJob (getChildrenOfJob c jobName username
          (fetchBuildHistory o)).cache jobName username laterFetch).fetchCalls
        = 1 := by
  rw [hfail]
  have hcache : (getChildrenOfJob c jobName username none).cache = c := by
    simp [getChildrenOfJob, hmiss]
  refine ⟨hcache, ?_, ?_, ?_⟩
  · simp [getChildrenOfJob, hmiss]
  · simp [getChildrenOfJob, hmiss]
  · intro laterFetch
    rw [hcache]
    cases laterFetch <;> simp [getChildrenOfJob, hmiss]

/-- Witness for C5 at a concrete input: empty cache, network error. -/
theorem failed_fetch_not_cached_witness :
    cacheGet cacheEmpty "JOB" = none ∧
    fetchBuildHistory HistoryHttpOutcome.netError = none ∧
    ((getChildrenOfJob cacheEmpty "JOB" "alice@x.com"
        (fetchBuildHistory HistoryHttpOutcome.netError)).cache = cacheEmpty ∧
      (getChildrenOfJob cacheEmpty "JOB" "alice@x.com"
        (fetchBuildHistory HistoryHttpOutcome.netError)).children =
        Except.ok (TreeChildren.placeholder "Could not fetch builds.") ∧
      (getChildrenOfJob cacheEmpty "JOB" "alice@x.com"
        (fetchBuildHistory HistoryHttpOutcome.netError)).fetchCalls = 1 ∧
      ∀ laterFetch,
        (getChildrenOfJob (getChildrenOfJob cacheEmpty "JOB" "alice@x.com"
            (fetchBuildHistory HistoryHttpOutcome.netError)).cache "JOB"
            "alice@x.com" laterFetch).fetchCalls = 1) :=
  ⟨rfl, rfl,
    failed_fetch_not_cached cacheEmpty "JOB" "alice@x.com"
      HistoryHttpOutcome.netError rfl rfl⟩

/-! ## Claim C6 -/

/-- Claim C6: after `clearCache()` removes all entries, the next
expansion of any project node with a job mapping issues exactly one
`fetchBuildHistory` call for that job, and no entry cached before the
clear can be served (the cleared cache holds no entry for the job at
all). -/
theorem clear_cache_forces_refetch (c : Cache) (jobName username : String)
    (fetchResult : Option (List JenkinsBuild)) :
    (getChildrenOfJob (cacheClear c) jobName username fetchResult).fetchCalls = 1 ∧
    cacheGet (cacheClear c) jobName = none := by
  cases fetchResult <;>
    simp [getChildrenOfJob, cacheClear, cacheEmpty, cacheGet]

/-! ## Claim C7 -/

/-- Claim C7: a refresh cycle run with no server URL configured (or no
username configured) halts early: every open folder is updated to the
`undefined` status - rendered as the unknown/unconfigured state - with
the configure command attached, and zero network requests are issued. -/
theorem unconfigured_cycle_no_network (config : JenkinsConfiguration)
    (apiToken : Option String) (workspaceFolders : List String)
    (net : String → StatusHttpOutcome)
    (hmissing : config.jenkinsUrl = "" ∨ config.username = "") :
    (refreshBuildStatuses config apiToken workspaceFolders net).updates =
      workspaceFolders.map (fun folder =>
        { folderName := folder, status := none,
          command := some "jenkinsBuildStatus.configure" }) ∧
    (refreshBuildStatuses config apiToken workspaceFolders net).statusRequests
      = [] ∧
    ∀ u ∈ (refreshBuildStatuses config apiToken workspaceFolders net).updates,
      summaryKindOf u.status = SummaryKind.unknown ∧
      u.command = some "jenkinsBuildStatus.configure" := by
  unfold refreshBuildStatuses
  rw [if_pos hmissing]
  refine ⟨rfl, rfl, ?_⟩
  intro u hu
  simp only [List.mem_map] at hu
  obtain ⟨folder, _, rfl⟩ := hu
  exact ⟨rfl, rfl⟩

/-- Witness for C7 at a concrete input: empty url, one folder. -/
theorem unconfigured_cycle_no_network_witness :
    (cfgNoUrl.jenkinsUrl = "" ∨ cfgNoUrl.username = "") ∧
    ((refreshBuildStatuses cfgNoUrl (some "token") ["proj-a"]
        (fun _ => StatusHttpOutcome.netError)).updates =
      ["proj-a"].map (fun folder =>
        { folderName := folder, status := none,
          command := some "jenkinsBuildStatus.configure" }) ∧
    (refreshBuildStatuses cfgNoUrl (some "token") ["proj-a"]
        (fun _ => StatusHttpOutcome.netError)).statusRequests = [] ∧
    ∀ u ∈ (refreshBuildStatuses cfgNoUrl (some "token") ["proj-a"]
        (fun _ => StatusHttpOutcome.netError)).updates,
      summaryKindOf u.status = SummaryKind.unknown ∧
      u.command = some "jenkinsBuildStatus.configure") :=
  ⟨Or.inl rfl,
    unconfigured_cycle_no_network cfgNoUrl (some "token") ["proj-a"]
      (fun _ => StatusHttpOutcome.netError) (Or.inl rfl)⟩

/-! ## Claim C8 -/

/-- Claim C8: when `fetchBuildStatus` succeeds with a JSON null
`result`, the summary presenter receives the null status and renders
the BUILDING branch, not the UNKNOWN branch, which is reserved for the
`undefined` fetch-failure signal. -/
theorem null_result_renders_building (config : JenkinsConfiguration)
    (token folder jobName : String) (net : String → StatusHttpOutcome)
    (hurl : config.jenkinsUrl ≠ "") (huser : config.username ≠ "")
    (htok : token ≠ "")
    (hmap : getJenkinsJobName folder config.repositoryMappings = some jobName)
    (hnet : net jobName = StatusHttpOutcome.response true none) :
    (refreshBuildStatuses config (some token) [folder] net).updates =
      [{ folderName := folder, status := some none, command := none }] ∧
    (refreshBuildStatuses config (some token) [folder] net).statusRequests
      = [jobName] ∧
    summaryKindOf (some none) = SummaryKind.building ∧
    SummaryKind.building ≠ SummaryKind.unknown ∧
    statusBarText folder (some none) =
      "$(sync~spin) " ++ folder ++ ": Building..." := by
  unfold refreshBuildStatuses
  rw [if_neg (by tauto), if_neg (by simp [jsFalsyOptStr, htok])]
  refine ⟨?_, ?_, rfl, by decide, rfl⟩
  · simp [hmap, hnet, fetchBuildStatus]
  · simp [hmap]

/-- Witness for C8 at a concrete input. -/
theorem null_result_renders_building_witness :
    cfgOk.jenkinsUrl ≠ "" ∧
    getJenkinsJobName "proj-a" cfgOk.repositoryMappings = some "JOB" ∧
    ((refreshBuildStatuses cfgOk (some "token") ["proj-a"]
        (fun _ => StatusHttpOutcome.response true none)).updates =
      [{ folderName := "proj-a", status := some none, command := none }] ∧
    (refreshBuildStatuses cfgOk (some "token") ["proj-a"]
        (fun _ => StatusHttpOutcome.response true none)).statusRequests
      = ["JOB"] ∧
    summaryKindOf (some none) = SummaryKind.building ∧
    SummaryKind.building ≠ SummaryKind.unknown ∧
    statusBarText "proj-a" (some none) =
      "$(sync~spin) " ++ "proj-a" ++ ": Building...") :=
  ⟨by decide, by decide,
    null_result_renders_building cfgOk "token" "proj-a" "JOB"
      (fun _ => StatusHttpOutcome.response true none)
      (by decide) (by decide) (by decide) (by decide) rfl⟩

/-! ## Claim C9 -/

/-- Claim C9: a configuration-change event that affects only the
polling interval makes the listener cancel exactly one pending timer
(the current handle) and arm exactly one new timer at the new
interval; it does not start a refresh cycle as part of the
transition. -/
theorem interval_change_rearms_once (ev : ConfigChangeEvent) (newInterval : Int)
    (s : SchedulerState) (handle : Nat)
    (hpoll : ev.affectsPollingInterval = true)
    (hurl : ev.affectsJenkinsUrl = false)
    (huser : ev.affectsUsername = false)
    (hmaps : ev.affectsRepositoryMappings = false)
    (htimer : s.timer = some handle) :
    (onConfigurationChanged ev newInterval s).2 =
      [SchedAction.cancelTimer handle,
       SchedAction.armTimer s.nextHandle newInterval] ∧
    (onConfigurationChanged ev newInterval s).1.timer = some s.nextHandle ∧
    (onConfigurationChanged ev newInterval s).1.timerInterval = newInterval ∧
    (onConfigurationChanged ev newInterval s).1.inFlight = s.inFlight ∧
    SchedAction.startRefresh ∉ (onConfigurationChanged ev newInterval s).2 := by
  simp [onConfigurationChanged, hpoll, hurl, huser, hmaps, htimer]

/-- Witness for C9 at a concrete input. -/
theorem interval_change_rearms_once_witness :
    (⟨true, false, false, false⟩ : ConfigChangeEvent).affectsPollingInterval
      = true ∧
    (activateInit 30000).timer = some 0 ∧
    ((onConfigurationChanged ⟨true, false, false, false⟩ 60000
        (activateInit 30000)).2 =
      [SchedAction.cancelTimer 0, SchedAction.armTimer 1 60000] ∧
    (onConfigurationChanged ⟨true, false, false, false⟩ 60000
        (activateInit 30000)).1.timer = some 1 ∧
    (onConfigurationChanged ⟨true, false, false, false⟩ 60000
        (activateInit 30000)).1.timerInterval = 60000 ∧
    (onConfigurationChanged ⟨true, false, false, false⟩ 60000
        (activateInit 30000)).1.inFlight = (activateInit 30000).inFlight ∧
    SchedAction.startRefresh ∉
      (onConfigurationChanged ⟨true, false, false, false⟩ 60000
        (activateInit 30000)).2) :=
  ⟨rfl, rfl,
    interval_change_rearms_once ⟨true, false, false, false⟩ 60000
      (activateInit 30000) 0 rfl rfl rfl rfl rfl⟩

/-! ## Claim C10 -/

/-- Claim C10: a successful fetch of an empty build list is cached all
the same, the expansion returns the `No builds found.` placeholder,
every subsequent expansion of the project node serves that placeholder
from the cached empty entry without a further fetch, and a
`clearCache()` makes expansion fetch again. -/
theorem empty_history_cached (c : Cache) (jobName username : String)
    (hmiss : cacheGet c jobName = none) :
    (getChildrenOfJob c jobName username (some [])).fetchCalls = 1 ∧
    (getChildrenOfJob c jobName username (some [])).cache =
      cacheSet c jobName [] ∧
    cacheGet (getChildrenOfJob c jobName username (some [])).cache jobName
      = some [] ∧
    (getChildrenOfJob c jobName username (some [])).children =
      Except.ok (TreeChildren.placeholder "No builds found.") ∧
    (∀ laterFetch,
      (getChildrenOfJob (getChildrenOfJob c jobName username (some [])).cache
        jobName username laterFetch).fetchCalls = 0 ∧
      (getChildrenOfJob (getChildrenOfJob c jobName username (some [])).cache
        jobName username laterFetch).children =
        Except.ok (TreeChildren.placeholder "No builds found.") ∧
      (getChildrenOfJob (getChildrenOfJob c jobName username (some [])).cache
        jobName username laterFetch).cache =
        (getChildrenOfJob c jobName username (some [])).cache) ∧
    ∀ laterFetch,
      (getChildrenOfJob
        (cacheClear (getChildrenOfJob c jobName username (some [])).cache)
        jobName username laterFetch).fetchCalls = 1 := by
  have hcache : (getChildrenOfJob c jobName username (some [])).cache =
      cacheSet c jobName [] := by
    simp [getChildrenOfJob, hmiss, presentJobBuilds]
  have hget : cacheGet (cacheSet c jobName []) jobName = some [] :=
    cacheGet_cacheSet_self c jobName []
  refine ⟨?_, hcache, ?_, ?_, ?_, ?_⟩
  · simp [getChildrenOfJob, hmiss]
  · rw [hcache]; exact hget
  · simp [getChildrenOfJob, hmiss, presentJobBuilds]
  · intro laterFetch
    rw [hcache]
    refine ⟨?_, ?_, ?_⟩ <;> simp [getChildrenOfJob, hget, presentJobBuilds]
  · intro laterFetch
    cases laterFetch <;>
      simp [getChildrenOfJob, cacheClear, cacheEmpty, cacheGet]

/-- Witness for C10 at a concrete input: empty cache. -/
theorem empty_history_cached_witness :
    cacheGet cacheEmpty "JOB" = none ∧
    ((getChildrenOfJob cacheEmpty "JOB" "alice@x.com" (some [])).fetchCalls = 1 ∧
    (getChildrenOfJob cacheEmpty "JOB" "alice@x.com" (some [])).cache =
      cacheSet cacheEmpty "JOB" [] ∧
    cacheGet (getChildrenOfJob cacheEmpty "JOB" "alice@x.com" (some [])).cache
      "JOB" = some [] ∧
    (getChildrenOfJob cacheEmpty "JOB" "alice@x.com" (some [])).children =
      Except.ok (TreeChildren.placeholder "No builds found.") ∧
    (∀ laterFetch,
      (getChildrenOfJob
        (getChildrenOfJob cacheEmpty "JOB" "alice@x.com" (some [])).cache
        "JOB" "alice@x.com" laterFetch).fetchCalls = 0 ∧
      (getChildrenOfJob
        (getChildrenOfJob cacheEmpty "JOB" "alice@x.com" (some [])).cache
        "JOB" "alice@x.com" laterFetch).children =
        Except.ok (TreeChildren.placeholder "No builds found.") ∧
      (getChildrenOfJob
        (getChildrenOfJob cacheEmpty "JOB" "alice@x.com" (some [])).cache
        "JOB" "alice@x.com" laterFetch).cache =
        (getChildrenOfJob cacheEmpty "JOB" "alice@x.com" (some [])).cache) ∧
    ∀ laterFetch,
      (getChildrenOfJob
        (cacheClear
          (getChildrenOfJob cacheEmpty "JOB" "alice@x.com" (some [])).cache)
        "JOB" "alice@x.com" laterFetch).fetchCalls = 1) :=
  ⟨rfl, empty_history_cached cacheEmpty "JOB" "alice@x.com" rfl⟩

/-! ## Presentation lemmas shared by C1 and C2 -/

/-- Filtered branch of `presentJobBuilds`: with a configured username
and a non-empty match set, the children are the sorted matching builds
and no warning is shown (provided every matching build has a first
change item, otherwise the mapping throws). -/
lemma presentJobBuilds_filtered (u jobName : String)
    (builds : List JenkinsBuild) (hu : u ≠ "")
    (hm : builds.filter (buildMatchesUser u) ≠ [])
    (hwf : ∀ b ∈ builds.filter (buildMatchesUser u),
      ∃ item, firstChangeItem b = Except.ok item) :
    ∃ items,
      presentJobBuilds u jobName builds =
        { children := Except.ok (TreeChildren.buildItems items),
          warning := none } ∧
      items.map JenkinsBuildItem.build =
        sortByNumberDesc (builds.filter (buildMatchesUser u)) := by
  have hne : builds ≠ [] := by
    intro h; subst h; simp at hm
  have hwfs : ∀ b ∈ sortByNumberDesc (builds.filter (buildMatchesUser u)),
      ∃ item, firstChangeItem b = Except.ok item := fun b hb =>
    hwf b (((sortByNumberDesc_perm _).mem_iff).mp hb)
  obtain ⟨items, hitems⟩ := buildItemsOf_ok jobName _ hwfs
  refine ⟨items, ?_, buildItemsOf_map_build jobName _ items hitems⟩
  unfold presentJobBuilds
  rw [if_pos (by simpa using List.length_pos.mpr hne)]
  simp only [if_pos hu, ne_eq]
  rw [if_pos (by simpa using List.length_pos.mpr hm)]
  simp [hitems, Except.map]

/-- Fallback branch of `presentJobBuilds`: with a configured username
matching no build in a non-empty history, the full unfiltered history
is presented in server order, together with the warning naming the
configured user and the count (again provided every presented build
has a first change item). -/
lemma presentJobBuilds_fallback (u jobName : String)
    (builds : List JenkinsBuild) (hne : builds ≠ []) (hu : u ≠ "")
    (hm : builds.filter (buildMatchesUser u) = [])
    (hwf : ∀ b ∈ builds, ∃ item, firstChangeItem b = Except.ok item) :
    ∃ items,
      presentJobBuilds u jobName builds =
        { children := Except.ok (TreeChildren.buildItems items),
          warning := some ("No builds for configured user " ++ u ++
            ", showing last " ++ toString builds.length ++ " builds") } ∧
      items.map JenkinsBuildItem.build = builds := by
  obtain ⟨items, hitems⟩ := buildItemsOf_ok jobName builds hwf
  refine ⟨items, ?_, buildItemsOf_map_build jobName builds items hitems⟩
  unfold presentJobBuilds
  rw [if_pos (by simpa using List.length_pos.mpr hne)]
  simp only [ne_eq]
  rw [if_pos hu, if_neg (by simp [hm])]
  simp [hitems, Except.map]

/-- On a cache miss with a successful fetch, the expansion presents the
fetched builds and caches them; its children and warning are those of
`presentJobBuilds` on the lower-cased username. -/
lemma getChildrenOfJob_fetch (c : Cache) (jobName username : String)
    (builds : List JenkinsBuild) (hmiss : cacheGet c jobName = none) :
    getChildrenOfJob c jobName username (some builds) =
      { children := (presentJobBuilds (jsToLower username) jobName builds).children,
        cache := cacheSet c jobName builds, fetchCalls := 1,
        warning := (presentJobBuilds (jsToLower username) jobName builds).warning } := by
  simp [getChildrenOfJob, hmiss]

/-- Evaluation of `presentedNumbers` by cases on the children. -/
lemma presentedNumbers_eval (out : ExpandOutcome) :
    presentedNumbers out =
      match out.children with
      | .ok (.buildItems items) =>
        some ((items.map JenkinsBuildItem.build).map JenkinsBuild.number)
      | _ => none := by
  rcases out with ⟨ch, c, f, w⟩
  cases ch with
  | error e => rfl
  | ok t => cases t <;> rfl

/-- Sorted branch of `presentJobBuilds` without any success assumption:
when the filtered list is non-empty, the children are whatever mapping
the sorted filtered list yields and there is no warning. -/
lemma presentJobBuilds_sortBranch (u jobName : String)
    (builds : List JenkinsBuild)
    (hm : (if u ≠ "" then builds.filter (buildMatchesUser u) else builds) ≠ []) :
    presentJobBuilds u jobName builds =
      { children := Except.map TreeChildren.buildItems
          (buildItemsOf jobName (sortByNumberDesc
            (if u ≠ "" then builds.filter (buildMatchesUser u) else builds))),
        warning := none } := by
  have hne : builds ≠ [] := by
    intro h; subst h
    by_cases hu : u ≠ "" <;> simp [hu] at hm
  unfold presentJobBuilds
  rw [if_pos (by simpa using List.length_pos.mpr hne)]
  rw [if_pos (by simpa using List.length_pos.mpr hm)]

/-- Fallback branch of `presentJobBuilds` without any success
assumption: when the filter empties a non-empty history, the children
are whatever mapping the unfiltered list yields, plus the warning. -/
lemma presentJobBuilds_fallbackBranch (u jobName : String)
    (builds : List JenkinsBuild) (hne : builds ≠ [])
    (hm : (if u ≠ "" then builds.filter (buildMatchesUser u) else builds) = []) :
    presentJobBuilds u jobName builds =
      { children := Except.map TreeChildren.buildItems (buildItemsOf jobName builds),
        warning := some ("No builds for configured user " ++ u ++
          ", showing last " ++ toString builds.length ++ " builds") } := by
  unfold presentJobBuilds
  rw [if_pos (by simpa using List.length_pos.mpr hne)]
  rw [if_neg (by simp [hm])]

/-! ## Claim C2 -/

/-- Claim C2: for a non-empty fetched history and a configured
username, if at least one build matches the case-insensitive author
filter then exactly the matching builds are presented (as a
permutation: the matching set, in sorted order) with no warning; if no
build matches, the full unfiltered history is presented in server
order together with the non-fatal warning naming the configured user
and the count shown. (The well-formedness hypothesis `hwf` excludes
the histories on which the presentation throws; those are the subject
of claim C4.) -/
theorem author_filter_policy (c : Cache) (jobName username : String)
    (builds : List JenkinsBuild)
    (hmiss : cacheGet c jobName = none)
    (hne : builds ≠ [])
    (huser : jsToLower username ≠ "")
    (hwf : ∀ b ∈ builds, ∃ item, firstChangeItem b = Except.ok item) :
    (builds.filter (buildMatchesUser (jsToLower username)) ≠ [] →
      (getChildrenOfJob c jobName username (some builds)).warning = none ∧
      ∃ presented,
        presentedBuilds (getChildrenOfJob c jobName username (some builds)) =
          some presented ∧
        List.Perm presented (builds.filter (buildMatchesUser (jsToLower username))) ∧
        ∀ b, b ∈ presented ↔
          b ∈ builds ∧ buildMatchesUser (jsToLower username) b = true) ∧
    (builds.filter (buildMatchesUser (jsToLower username)) = [] →
      presentedBuilds (getChildrenOfJob c jobName username (some builds)) =
        some builds ∧
      (getChildrenOfJob c jobName username (some builds)).warning =
        some ("No builds for configured user " ++ jsToLower username ++
          ", showing last " ++ toString builds.length ++ " builds")) := by
  rw [getChildrenOfJob_fetch c jobName username builds hmiss]
  constructor
  · intro hm
    obtain ⟨items, hpres, hmap⟩ := presentJobBuilds_filtered (jsToLower username)
      jobName builds huser hm
      (fun b hb => hwf b (List.mem_of_mem_filter hb))
    rw [hpres]
    refine ⟨rfl, items.map JenkinsBuildItem.build, rfl, ?_, ?_⟩
    · rw [hmap]; exact sortByNumberDesc_perm _
    · intro b
      rw [hmap, (sortByNumberDesc_perm _).mem_iff, List.mem_filter]
  · intro hm
    obtain ⟨items, hpres, hmap⟩ := presentJobBuilds_fallback (jsToLower username)
      jobName builds hne huser hm hwf
    rw [hpres]
    exact ⟨by simp [presentedBuilds, hmap], rfl⟩

/-- Witness for C2 at the spec scenario of section 8: username
`alice@x.com`, history `[build 5 by bob, build 4 by alice]`; the match
set is `[build 4]`. -/
theorem author_filter_policy_witness :
    cacheGet cacheEmpty "JOB" = none ∧
    ([buildNo5Bob, buildNo4Alice] : List JenkinsBuild) ≠ [] ∧
    jsToLower "alice@x.com" ≠ "" ∧
    (([buildNo5Bob, buildNo4Alice].filter
        (buildMatchesUser (jsToLower "alice@x.com")) ≠ [] →
      (getChildrenOfJob cacheEmpty "JOB" "alice@x.com"
        (some [buildNo5Bob, buildNo4Alice])).warning = none ∧
      ∃ presented,
        presentedBuilds (getChildrenOfJob cacheEmpty "JOB" "alice@x.com"
          (some [buildNo5Bob, buildNo4Alice])) = some presented ∧
        List.Perm presented ([buildNo5Bob, buildNo4Alice].filter
          (buildMatchesUser (jsToLower "alice@x.com"))) ∧
        ∀ b, b ∈ presented ↔
          b ∈ [buildNo5Bob, buildNo4Alice] ∧
          buildMatchesUser (jsToLower "alice@x.com") b = true) ∧
    ([buildNo5Bob, buildNo4Alice].filter
        (buildMatchesUser (jsToLower "alice@x.com")) = [] →
      presentedBuilds (getChildrenOfJob cacheEmpty "JOB" "alice@x.com"
        (some [buildNo5Bob, buildNo4Alice])) =
        some [buildNo5Bob, buildNo4Alice] ∧
      (getChildrenOfJob cacheEmpty "JOB" "alice@x.com"
        (some [buildNo5Bob, buildNo4Alice])).warning =
        some ("No builds for configured user " ++ jsToLower "alice@x.com" ++
          ", showing last " ++
          toString ([buildNo5Bob, buildNo4Alice] : List JenkinsBuild).length ++
          " builds"))) :=
  ⟨rfl, by decide, by decide,
    author_filter_policy cacheEmpty "JOB" "alice@x.com"
      [buildNo5Bob, buildNo4Alice] rfl (by decide) (by decide)
      (by intro b hb
          fin_cases hb
          · exact ⟨⟨"msg five", some "bob@x.com", "c555"⟩, rfl⟩
          · exact ⟨⟨"msg four", some "alice@x.com", "c444"⟩, rfl⟩)⟩

/-! ## Claim C1 -/

/-- Claim C1 as stated is false on the code: in the fallback branch
(author filter matched nothing) the builds are presented in
server-returned order without sorting. With the history arriving as
`[build 1, build 2]` and username `alice@x.com` matching neither
build, the presented numbers are `[1, 2]`, which is not strictly
descending. -/
theorem fallback_order_counterexample :
    presentedNumbers (getChildrenOfJob cacheEmpty "JOB" "alice@x.com"
      (some [buildNo1Bob, buildNo2Bob])) = some [1, 2] ∧
    ¬ StrictlyDescending [(1 : Int), 2] := by
  constructor
  · decide
  · decide

/-- Claim C1 (amended): the presented sequence is strictly descending
by build number whenever the author filter produced a non-empty set -
including the no-username case where the full list is sorted - while
in the fallback branch (configured user matched no build) the full
unfiltered history is presented in the server-returned order, without
sorting. `hnodup` is the data-model invariant that no two builds of a
job share a number. -/
theorem presented_order_amended (c : Cache) (jobName username : String)
    (builds : List JenkinsBuild)
    (hmiss : cacheGet c jobName = none)
    (hnodup : (builds.map JenkinsBuild.number).Nodup) :
    ((if jsToLower username ≠ "" then
        builds.filter (buildMatchesUser (jsToLower username))
      else builds) ≠ [] →
      ∀ ns, presentedNumbers (getChildrenOfJob c jobName username (some builds))
          = some ns →
        StrictlyDescending ns) ∧
    ((if jsToLower username ≠ "" then
        builds.filter (buildMatchesUser (jsToLower username))
      else builds) = [] →
      ∀ ns, presentedNumbers (getChildrenOfJob c jobName username (some builds))
          = some ns →
        ns = builds.map JenkinsBuild.number) := by
  constructor
  · intro hm ns hns
    rw [presentedNumbers_eval, getChildrenOfJob_fetch c jobName username builds
      hmiss, presentJobBuilds_sortBranch (jsToLower username) jobName builds hm]
      at hns
    set filtered := (if jsToLower username ≠ "" then
      builds.filter (buildMatchesUser (jsToLower username)) else builds) with hf
    have hsub : List.Sublist filtered builds := by
      rw [hf]
      split
      · exact List.filter_sublist builds
      · exact List.Sublist.refl builds
    have hnd : (filtered.map JenkinsBuild.number).Nodup :=
      hnodup.sublist (hsub.map JenkinsBuild.number)
    cases hitems : buildItemsOf jobName (sortByNumberDesc filtered) with
    | error e => rw [hitems] at hns; exact absurd hns (by simp [Except.map])
    | ok items =>
      rw [hitems] at hns
      simp only [Except.map] at hns
      have hmap := buildItemsOf_map_build jobName _ items hitems
      have hdesc := sortByNumberDesc_strictDesc filtered hnd
      have hns2 : some ((items.map JenkinsBuildItem.build).map
          JenkinsBuild.number) = some ns := hns
      rw [hmap] at hns2
      rwa [Option.some_inj.mp hns2] at hdesc
  · intro hm ns hns
    have hne : builds ≠ [] := by
      intro h; subst h
      rw [presentedNumbers_eval, getChildrenOfJob_fetch c jobName username []
        hmiss] at hns
      have hp : presentJobBuilds (jsToLower username) jobName [] =
          { children := Except.ok (TreeChildren.placeholder "No builds found."),
            warning := none } := rfl
      rw [hp] at hns
      exact absurd hns (by simp)
    rw [presentedNumbers_eval, getChildrenOfJob_fetch c jobName username builds
      hmiss, presentJobBuilds_fallbackBranch (jsToLower username) jobName builds
      hne hm] at hns
    cases hitems : buildItemsOf jobName builds with
    | error e => rw [hitems] at hns; exact absurd hns (by simp [Except.map])
    | ok items =>
      rw [hitems] at hns
      simp only [Except.map] at hns
      have hmap := buildItemsOf_map_build jobName builds items hitems
      have hns2 : some ((items.map JenkinsBuildItem.build).map
          JenkinsBuild.number) = some ns := hns
      rw [hmap] at hns2
      exact (Option.some_inj.mp hns2).symm

/-- Witness for the amended C1 at the spec scenario history
`[build 5 by bob, build 4 by alice]` with username `alice@x.com`. -/
theorem presented_order_amended_witness :
    cacheGet cacheEmpty "JOB" = none ∧
    (([buildNo5Bob, buildNo4Alice].map JenkinsBuild.number).Nodup) ∧
    (((if jsToLower "alice@x.com" ≠ "" then
        [buildNo5Bob, buildNo4Alice].filter
          (buildMatchesUser (jsToLower "alice@x.com"))
      else [buildNo5Bob, buildNo4Alice]) ≠ [] →
      ∀ ns, presentedNumbers (getChildrenOfJob cacheEmpty "JOB" "alice@x.com"
          (some [buildNo5Bob, buildNo4Alice])) = some ns →
        StrictlyDescending ns) ∧
    ((if jsToLower "alice@x.com" ≠ "" then
        [buildNo5Bob, buildNo4Alice].filter
          (buildMatchesUser (jsToLower "alice@x.com"))
      else [buildNo5Bob, buildNo4Alice]) = [] →
      ∀ ns, presentedNumbers (getChildrenOfJob cacheEmpty "JOB" "alice@x.com"
          (some [buildNo5Bob, buildNo4Alice])) = some ns →
        ns = [buildNo5Bob, buildNo4Alice].map JenkinsBuild.number)) :=
  ⟨rfl, by decide,
    presented_order_amended cacheEmpty "JOB" "alice@x.com"
      [buildNo5Bob, buildNo4Alice] rfl (by decide)⟩

/-! ## Claim C3 -/

/-- Claim C3 as stated is false on the code: right after activation
one refresh cycle is in flight (started fire-and-forget), and a timer
fire while it is still running starts a second concurrent cycle - the
`setInterval` callback neither checks an in-flight flag nor awaits the
previous promise, so two cycles are in flight, violating the claimed
bound of at most one. -/
theorem overlapping_cycles_counterexample :
    (activateInit 30000).inFlight = 1 ∧
    (schedRun (activateInit 30000) [SchedEvent.timerFire]).map
      SchedulerState.inFlight = some 2 ∧
    ¬ (2 ≤ 1) := by
  refine ⟨rfl, rfl, by decide⟩

/-- Claim C3 (amended): a fired timer always starts a new refresh
cycle immediately and unconditionally - it is neither a no-op nor
queued - so when a cycle is still in flight the in-flight count
increments and the cycles overlap. -/
theorem timer_fire_starts_cycle_amended (s : SchedulerState)
    (harmed : s.timer.isSome = true) :
    schedStep s SchedEvent.timerFire =
      some { s with inFlight := s.inFlight + 1 } := by
  simp [schedStep, harmed]

/-- Witness for the amended C3 at the post-activation state. -/
theorem timer_fire_starts_cycle_amended_witness :
    (activateInit 30000).timer.isSome = true ∧
    schedStep (activateInit 30000) SchedEvent.timerFire =
      some { activateInit 30000 with
             inFlight := (activateInit 30000).inFlight + 1 } :=
  ⟨rfl, timer_fire_starts_cycle_amended (activateInit 30000) rfl⟩

/-! ## Claim C4 -/

/-- Claim C4 names a real property of the specification that the code
violates (a code bug): expanding a project node whose history contains
a build with an empty change-set list reaches, in the unfiltered
fallback branch, the unguarded expression
`build.changeSets[0].items[0].commitId`, which throws a `TypeError`
that escapes `getChildren`. -/
theorem fallback_empty_changeset_throws :
    (getChildrenOfJob cacheEmpty "JOB" "alice@x.com"
        (some [buildNo7NoChanges])).children =
      Except.error "TypeError: cannot read items of undefined" := by
  decide

end JenkinsToolkit
